import Mathlib

/-!
Verification of the segment normalization and subtitle serialization pipeline
of `src/local_asr/transcribe_server.py`.

Embedding notes:
* Times (`start`/`end` seconds) are embedded as `ℚ`.  The source stores them as
  Python floats; every timing rule at stake (`end = start + 2.0` fallback,
  comparisons, the millisecond rendering of the concrete scenario) is exact
  arithmetic on the values involved, so the rational embedding is faithful.
* A raw recognition fragment is a Python dict; `seg.get("timestamp")` may be
  absent (`Option`), and when present is a pair whose components may each be
  `None`.  `seg.get("text")` may be absent or `None`; the source coalesces it
  with `(seg.get("text") or "")`, which yields `""` both for a missing key and
  for `None` (and leaves any non-empty string, including whitespace, intact),
  embedded here as `Option.getD "" `.
* `result.get("chunks")` may be `None`; `build_segments` therefore takes an
  `Option (List RawFragment)`.
* The two `RuntimeError`s of `_build_segments` are distinguished by their
  messages; they are embedded as the two constructors of `BuildError`
  (`missingUpstreamOutput` for "Không tìm thấy segments nào...",
  `emptyTranscript` for "Không tạo được phụ đề nào...").
-/

set_option autoImplicit false

namespace TranscribeServer

/-- Python's `str.strip()`: remove leading and trailing whitespace
characters.  (Defined on the character list so that it reduces in the
kernel; `Char.isWhitespace` embeds `str.isspace` for the characters in
play.) -/
def pyStrip (s : String) : String :=
  ⟨((s.data.dropWhile Char.isWhitespace).reverse.dropWhile
      Char.isWhitespace).reverse⟩

/-- A raw fragment as produced by the recognition pipeline: the
`timestamp` entry (absent, or a pair of optional start/end seconds) and the
`text` entry (absent/None, or a string). -/
structure RawFragment where
  timestamp : Option (Option ℚ × Option ℚ)
  text : Option String
  deriving Repr, DecidableEq

/-- A normalized segment, the dict `{id, start, end, text}` built by
`_build_segments`. -/
structure Segment where
  id : Nat
  start : ℚ
  «end» : ℚ
  text : String
  deriving Repr, DecidableEq

/-- The two `RuntimeError` failures of `_build_segments`. -/
inductive BuildError where
  | missingUpstreamOutput
  | emptyTranscript
  deriving Repr, DecidableEq

/-- The per-fragment body of the loop in `_build_segments`: skip when
`timestamp` is absent, skip when `start` is `None`, fall back to
`start + 2.0` when `end` is `None`, coalesce and strip the text, skip when
the stripped text is empty; otherwise yield `(start, end, text)`. -/
def processFragment (seg : RawFragment) : Option (ℚ × ℚ × String) :=
  match seg.timestamp with
  | none => none
  | some (start_sec, end_sec) =>
    match start_sec with
    | none => none
    | some s =>
      let e : ℚ := match end_sec with
        | none => s + 2
        | some e0 => e0
      let text := pyStrip (seg.text.getD "")
      if text = "" then none else some (s, e, text)

/-- The accumulation loop of `_build_segments`: `index` starts at 1 and is
incremented only when a fragment is accepted. -/
def buildLoop : List RawFragment → Nat → List Segment
  | [], _ => []
  | seg :: rest, index =>
    match processFragment seg with
    | none => buildLoop rest index
    | some (s, e, t) => ⟨index, s, e, t⟩ :: buildLoop rest (index + 1)

/-- `_build_segments`, from the point where the recognition result is in
hand: `result.get("chunks")` is the argument.  `none` (no fragment
collection) raises the first `RuntimeError`; an empty accepted list raises
the second; otherwise the accepted segments are returned. -/
def build_segments (chunks : Option (List RawFragment)) :
    Except BuildError (List Segment) :=
  match chunks with
  | none => .error .missingUpstreamOutput
  | some segs =>
    let items := buildLoop segs 1
    if items = [] then .error .emptyTranscript else .ok items

/-- Left-pad a number to two digits, as `%02d`. -/
def pad2 (n : Nat) : String :=
  if n < 10 then "0" ++ toString n else toString n

/-- Left-pad a number to three digits, as `%03d`. -/
def pad3 (n : Nat) : String :=
  if n < 100 then (if n < 10 then "00" else "0") ++ toString n else toString n

/-- Modelled from the spec: the timestamp rendering of the third-party `srt`
library used by `_segments_to_srt` (its source is not part of this
repository).  Per the spec's bit-exact SubRip format, a time is rendered as
`HH:MM:SS,mmm` with zero-padded hours/minutes/seconds and three millisecond
digits (milliseconds truncated to 3 digits). -/
def srt_timestamp (t : ℚ) : String :=
  let totalMs : Nat := (t * 1000).floor.toNat
  pad2 (totalMs / 3600000) ++ ":" ++ pad2 (totalMs % 3600000 / 60000) ++ ":" ++
    pad2 (totalMs % 60000 / 1000) ++ "," ++ pad3 (totalMs % 1000)

/-- Modelled from the spec: one SubRip block of the third-party `srt`
library's composer — the sequence number line, the
`HH:MM:SS,mmm --> HH:MM:SS,mmm` timing line, the text line, then a blank
line. -/
def segment_to_srt_block (seg : Segment) : String :=
  toString seg.id ++ "\n" ++ srt_timestamp seg.start ++ " --> " ++
    srt_timestamp seg.«end» ++ "\n" ++ seg.text ++ "\n\n"

/-- `_segments_to_srt`: render each segment as a SubRip block and
concatenate (the `srt.compose` call; block layout modelled from the spec's
bit-exact format since the `srt` library is external). -/
def segments_to_srt (segments : List Segment) : String :=
  String.join (segments.map segment_to_srt_block)

/-- `_segments_to_response`: the full text is each segment's stripped text
joined with a single space, with the overall result stripped; the segment
list is passed through unchanged. -/
def segments_to_response (segments : List Segment) :
    String × List Segment :=
  (pyStrip (String.intercalate " " (segments.map (fun seg => pyStrip seg.text))),
    segments)

/-- The concrete two-fragment scenario of the spec. -/
def scenarioFragments : List RawFragment :=
  [⟨some (some 0, some (5/2)), some " Hello "⟩,
   ⟨some (some (5/2), none), some "world"⟩]

/-- The segments the spec expects for `scenarioFragments`. -/
def scenarioSegments : List Segment :=
  [⟨1, 0, 5/2, "Hello"⟩, ⟨2, 5/2, 9/2, "world"⟩]

/-- `toTranscript` as the spec words it: "`text` = each segment's trimmed
`text`, joined with a single space, in list order, with the overall result
trimmed of leading/trailing whitespace"; "`segments` = the input list
passed through unchanged". -/
def toTranscript_spec (segments : List Segment) : String × List Segment :=
  (pyStrip (String.intercalate " " (segments.map (fun seg => pyStrip seg.text))),
    segments)

/-- Whether a fragment survives the per-fragment processing rules. -/
def accepted (f : RawFragment) : Bool :=
  (processFragment f).isSome

end TranscribeServer

namespace TranscribeServer

theorem buildLoop_length (l : List RawFragment) :
    ∀ i, (buildLoop l i).length = l.countP accepted := by
  induction l with
  | nil => intro i; simp [buildLoop]
  | cons f rest ih =>
    intro i
    cases h : processFragment f with
    | none => simp [buildLoop, h, List.countP_cons, accepted, ih]
    | some v =>
      obtain ⟨s, e, t⟩ := v
      simp [buildLoop, h, List.countP_cons, accepted, ih]

theorem buildLoop_map_id (l : List RawFragment) :
    ∀ i, (buildLoop l i).map Segment.id =
      List.range' i (buildLoop l i).length := by
  induction l with
  | nil => intro i; simp [buildLoop]
  | cons f rest ih =>
    intro i
    cases h : processFragment f with
    | none => simp [buildLoop, h, ih]
    | some v =>
      obtain ⟨s, e, t⟩ := v
      simp [buildLoop, h, ih, List.range'_succ]

theorem buildLoop_mem (l : List RawFragment) :
    ∀ i seg, seg ∈ buildLoop l i →
      ∃ f ∈ l, processFragment f = some (seg.start, seg.«end», seg.text) := by
  induction l with
  | nil => intro i seg h; simp [buildLoop] at h
  | cons f rest ih =>
    intro i seg h
    cases hf : processFragment f with
    | none =>
      rw [buildLoop, hf] at h
      obtain ⟨g, hg, hpg⟩ := ih i seg h
      exact ⟨g, List.mem_cons_of_mem _ hg, hpg⟩
    | some v =>
      obtain ⟨s, e, t⟩ := v
      rw [buildLoop, hf] at h
      rcases List.mem_cons.mp h with h1 | h2
      · subst h1; exact ⟨f, List.mem_cons_self _ _, hf⟩
      · obtain ⟨g, hg, hpg⟩ := ih (i + 1) seg h2
        exact ⟨g, List.mem_cons_of_mem _ hg, hpg⟩

theorem processFragment_some_inv (f : RawFragment) (s e : ℚ) (t : String)
    (h : processFragment f = some (s, e, t)) :
    ∃ oe : Option ℚ, f.timestamp = some (some s, oe) ∧
      e = (match oe with | none => s + 2 | some e0 => e0) ∧
      t = pyStrip (f.text.getD "") ∧ t ≠ "" := by
  cases hts : f.timestamp with
  | none => simp [processFragment, hts] at h
  | some p =>
    obtain ⟨os, oe⟩ := p
    cases os with
    | none => simp [processFragment, hts] at h
    | some s0 =>
      by_cases htx : pyStrip (f.text.getD "") = ""
      · simp [processFragment, hts, htx] at h
      · simp [processFragment, hts, htx] at h
        obtain ⟨hs, he, ht⟩ := h
        subst hs
        exact ⟨oe, rfl, he.symm, ht.symm, fun hc => htx (ht ▸ hc)⟩

theorem build_segments_ok_iff (l : List RawFragment) (items : List Segment) :
    build_segments (some l) = .ok items ↔
      buildLoop l 1 = items ∧ items ≠ [] := by
  by_cases hnil : buildLoop l 1 = []
  · simp [build_segments, hnil]
  · simp [build_segments, hnil]
    intro h; subst h; exact hnil

end TranscribeServer

namespace TranscribeServer

/-- C8: when the upstream recognition result carries no fragment collection
(`chunks` is `None`), `_build_segments` raises the "missing upstream
output" error, which is distinct from the "empty transcript" error, and no
segments are returned. -/
theorem build_segments_none_missing_upstream :
    build_segments none = .error .missingUpstreamOutput ∧
      BuildError.missingUpstreamOutput ≠ BuildError.emptyTranscript := by
  exact ⟨rfl, by decide⟩

/-- C10: `_segments_to_response` applied to the empty segment list does not
fail: it returns the empty text and the empty segment list. -/
theorem segments_to_response_empty :
    segments_to_response [] = ("", []) := by
  decide

/-- C1: given that the upstream result contains a fragment collection,
`_build_segments` fails with the empty-transcript error exactly when zero
fragments survive the per-fragment rules (missing timing, missing start,
empty stripped text); otherwise it returns the non-empty accepted segment
list. -/
theorem build_segments_empty_transcript_iff (l : List RawFragment) :
    (build_segments (some l) = .error .emptyTranscript ↔
      l.countP accepted = 0) ∧
    (l.countP accepted ≠ 0 →
      build_segments (some l) = .ok (buildLoop l 1) ∧ buildLoop l 1 ≠ []) := by
  have hlen := buildLoop_length l 1
  by_cases hnil : buildLoop l 1 = []
  · have h0 : l.countP accepted = 0 := by rw [← hlen, hnil]; rfl
    exact ⟨by simp [build_segments, hnil, h0], fun hne => absurd h0 hne⟩
  · have h0 : l.countP accepted ≠ 0 := by
      rw [← hlen]
      simpa [List.length_eq_zero] using hnil
    exact ⟨by simp [build_segments, hnil, h0],
      fun _ => ⟨by simp [build_segments, hnil], hnil⟩⟩

/-- Witness for C1 at a concrete one-fragment input (accepted, so the
non-failure branch applies). -/
theorem build_segments_empty_transcript_iff_witness :
    build_segments (some [(⟨some (some 0, none), some "x"⟩ : RawFragment)]) =
      .ok (buildLoop [(⟨some (some 0, none), some "x"⟩ : RawFragment)] 1) ∧
    buildLoop [(⟨some (some 0, none), some "x"⟩ : RawFragment)] 1 ≠ [] :=
  (build_segments_empty_transcript_iff _).2 (by with_unfolding_all decide)

/-- C2: a fragment accepted with `start = s` and `end` null yields exactly
the payload `(s, s + 2.0, stripped text)`: the emitted segment's end is
`s + 2.0` seconds. -/
theorem processFragment_end_fallback (f : RawFragment) (s : ℚ)
    (hts : f.timestamp = some (some s, none))
    (htx : pyStrip (f.text.getD "") ≠ "") :
    processFragment f = some (s, s + 2, pyStrip (f.text.getD "")) := by
  simp [processFragment, hts, htx]

/-- Witness for C2: a fragment at `start = 1/2` with null end is emitted
with `end = 5/2 = 1/2 + 2.0`. -/
theorem processFragment_end_fallback_witness :
    processFragment ⟨some (some (1/2), none), some " hi "⟩ =
      some (1/2, 5/2, "hi") :=
  (processFragment_end_fallback ⟨some (some (1/2), none), some " hi "⟩ (1/2)
    rfl (by with_unfolding_all decide)).trans (by with_unfolding_all rfl)

/-- C3: when `_build_segments` succeeds, the emitted `id`s are exactly
`1, 2, ..., N` in output order — no gaps, no repeats — where `N` is the
number of accepted fragments (the index increments only on acceptance). -/
theorem build_segments_id_range (l : List RawFragment) (items : List Segment)
    (hok : build_segments (some l) = .ok items) :
    items.map Segment.id = List.range' 1 (l.countP accepted) := by
  obtain ⟨hitems, -⟩ := (build_segments_ok_iff l items).mp hok
  subst hitems
  rw [← buildLoop_length l 1]
  exact buildLoop_map_id l 1

/-- Witness for C3 on the spec's concrete scenario (one fragment of which
is only accepted after the end-time fallback). -/
theorem build_segments_id_range_witness :
    scenarioSegments.map Segment.id =
      List.range' 1 (scenarioFragments.countP accepted) :=
  build_segments_id_range scenarioFragments scenarioSegments
    (by with_unfolding_all rfl)

/-- C4: a fragment with absent timing or null start is never emitted
regardless of its end or text; a fragment whose stripped text is empty is
never emitted regardless of timing; and every emitted segment's text is
non-empty and equal to some input fragment's text stripped of
leading/trailing whitespace. -/
theorem normalize_drop_and_trim_rules :
    (∀ f : RawFragment,
        (f.timestamp = none ∨ ∃ oe, f.timestamp = some (none, oe)) →
        processFragment f = none) ∧
    (∀ f : RawFragment, pyStrip (f.text.getD "") = "" →
        processFragment f = none) ∧
    (∀ (l : List RawFragment) (items : List Segment),
        build_segments (some l) = .ok items →
        ∀ seg ∈ items, seg.text ≠ "" ∧
          ∃ f ∈ l, seg.text = pyStrip (f.text.getD "")) := by
  refine ⟨?_, ?_, ?_⟩
  · rintro f (hts | ⟨oe, hts⟩) <;> simp [processFragment, hts]
  · intro f htx
    cases hts : f.timestamp with
    | none => simp [processFragment, hts]
    | some p =>
      obtain ⟨os, oe⟩ := p
      cases os with
      | none => simp [processFragment, hts]
      | some s => simp [processFragment, hts, htx]
  · intro l items hok seg hseg
    obtain ⟨hitems, -⟩ := (build_segments_ok_iff l items).mp hok
    subst hitems
    obtain ⟨f, hf, hpf⟩ := buildLoop_mem l 1 seg hseg
    obtain ⟨oe, -, -, ht, hne⟩ := processFragment_some_inv f _ _ _ hpf
    exact ⟨hne, f, hf, ht⟩

/-- Witness for C4: a null-start fragment and a whitespace-only fragment
are both dropped; the scenario's first emitted text is the stripped
`" Hello "`. -/
theorem normalize_drop_and_trim_rules_witness :
    processFragment ⟨some (none, some 3), some "kept"⟩ = none ∧
    processFragment ⟨some (some 1, some 3), some "   "⟩ = none ∧
    ((⟨1, 0, 5/2, "Hello"⟩ : Segment).text ≠ "" ∧
      ∃ f ∈ scenarioFragments,
        (⟨1, 0, 5/2, "Hello"⟩ : Segment).text = pyStrip (f.text.getD "")) := by
  refine ⟨?_, ?_, ?_⟩
  · exact normalize_drop_and_trim_rules.1 _ (Or.inr ⟨some 3, rfl⟩)
  · exact normalize_drop_and_trim_rules.2.1 _ (by with_unfolding_all rfl)
  · exact normalize_drop_and_trim_rules.2.2 scenarioFragments scenarioSegments
      (by with_unfolding_all rfl) ⟨1, 0, 5/2, "Hello"⟩
      (by with_unfolding_all decide)

/-- C5: the spec's concrete two-fragment scenario end to end: the
normalized segments, the bit-exact SubRip document, and the joined
transcript text with the segment list passed through. -/
theorem concrete_scenario_end_to_end :
    build_segments (some scenarioFragments) = .ok scenarioSegments ∧
    segments_to_srt scenarioSegments =
      "1\n00:00:00,000 --> 00:00:02,500\nHello\n\n2\n00:00:02,500 --> 00:00:04,500\nworld\n\n" ∧
    (segments_to_response scenarioSegments).1 = "Hello world" ∧
    (segments_to_response scenarioSegments).2 = scenarioSegments := by
  refine ⟨?_, ?_, ?_, ?_⟩ <;> with_unfolding_all rfl

/-- C6: for every non-empty segment list, `_segments_to_response` computes
exactly the spec's `toTranscript`: the stripped texts joined with single
spaces and stripped overall, alongside the unchanged segment list. -/
theorem segments_to_response_refines_spec (segments : List Segment)
    (_h : segments ≠ []) :
    segments_to_response segments = toTranscript_spec segments := rfl

/-- Witness for C6 on the scenario's segments. -/
theorem segments_to_response_refines_spec_witness :
    segments_to_response scenarioSegments = toTranscript_spec scenarioSegments :=
  segments_to_response_refines_spec scenarioSegments
    (by with_unfolding_all decide)

/-- C7 fails as stated: a fragment supplying `end < start` upstream is
emitted unchanged, so not every emitted segment satisfies `end ≥ start`. -/
theorem inverted_timestamps_pass_through :
    build_segments (some [(⟨some (some 5, some 1), some "x"⟩ : RawFragment)]) =
      .ok [⟨1, 5, 1, "x"⟩] ∧
    ¬ ∀ seg ∈ [(⟨1, 5, 1, "x"⟩ : Segment)], seg.start ≤ seg.«end» := by
  constructor
  · with_unfolding_all rfl
  · intro hall
    have h51 := hall ⟨1, 5, 1, "x"⟩ (List.mem_cons_self _ _)
    norm_num at h51

/-- C7 amended: every emitted segment satisfies `end ≥ start` provided
every input fragment that supplies both `start` and `end` has
`end ≥ start`; a synthesized end-time (`start + 2.0`) satisfies it
unconditionally. -/
theorem end_ge_start_of_upstream_ordered (l : List RawFragment)
    (items : List Segment) (hok : build_segments (some l) = .ok items)
    (hup : ∀ f ∈ l, ∀ s e : ℚ, f.timestamp = some (some s, some e) → s ≤ e) :
    ∀ seg ∈ items, seg.start ≤ seg.«end» := by
  intro seg hseg
  obtain ⟨hitems, -⟩ := (build_segments_ok_iff l items).mp hok
  subst hitems
  obtain ⟨f, hf, hpf⟩ := buildLoop_mem l 1 seg hseg
  obtain ⟨oe, hts, he, -, -⟩ := processFragment_some_inv f _ _ _ hpf
  cases oe with
  | none =>
    have he' : seg.«end» = seg.start + 2 := he
    rw [he']
    linarith
  | some e0 =>
    have he' : seg.«end» = e0 := he
    rw [he']
    exact hup f hf seg.start e0 hts

/-- Witness for the amended C7: an input whose only fragment has a null
end-time, so the upstream-order hypothesis holds vacuously. -/
theorem end_ge_start_of_upstream_ordered_witness :
    (⟨1, 0, 2, "x"⟩ : Segment).start ≤ (⟨1, 0, 2, "x"⟩ : Segment).«end» := by
  refine end_ge_start_of_upstream_ordered
    [⟨some (some 0, none), some "x"⟩] [⟨1, 0, 2, "x"⟩]
    (by with_unfolding_all rfl) ?_ ⟨1, 0, 2, "x"⟩ (List.mem_cons_self _ _)
  intro f hf s e hts
  simp only [List.mem_singleton] at hf
  subst hf
  simp at hts

/-- C9: a fragment whose `text` is absent/None does not make the loop fail:
the text is coalesced to the empty string and the fragment is skipped,
exactly as a whitespace-only text is. -/
theorem missing_text_skipped (ts : Option (Option ℚ × Option ℚ)) :
    processFragment ⟨ts, none⟩ = none ∧
    processFragment ⟨ts, none⟩ = processFragment ⟨ts, some " "⟩ := by
  match ts with
  | none => exact ⟨rfl, rfl⟩
  | some (none, oe) => exact ⟨rfl, rfl⟩
  | some (some s, oe) => exact ⟨rfl, rfl⟩

end TranscribeServer
